import Mathlib

/-!
Verification of the task-scheduling model builder in `schedule.py`
(class `TaskScheduler`).  The Python code is shallowly embedded below:
Python ints become `Int` (with floor division `Int.fdiv` / `Int.fmod`
matching Python `//` and `%`), Python float arithmetic on the bias terms
is embedded in `ℚ`, Python sets become `Finset Int`, the insertion-ordered
task dict becomes a list of label/record pairs, and code that can raise
becomes `Except PyErr`.
-/

namespace Schedule

/-- Record for one task (or chunk): the `duration`, `deadline` and
`priority` fields of the per-task dict built by `_read_tasks` /
`_split_tasks`. -/
structure TaskInfo where
  duration : Int
  deadline : Int
  priority : Int
deriving DecidableEq

/-- Embeds Python `range(n)` over an integer argument: the ascending list
`0, 1, ..., n-1`, empty when `n ≤ 0`. -/
def pyRange (n : Int) : List Int := (List.range n.toNat).map (fun (k : Nat) => (k : Int))

/-- Embeds `self.max_deadline = self.num_days * 24`, the scheduling horizon
in hours. -/
def maxDeadline (numDays : Int) : Int := numDays * 24

/-- Embeds `num_start_times = self.max_deadline - info['duration'] + 1`
from `_add_variables`. -/
def numStartTimes (maxDl : Int) (info : TaskInfo) : Int := maxDl - info.duration + 1

/-- The domain a chunk variable gets from `dqm.add_variable(num_start_times)`:
the cases `0 .. num_start_times - 1`. -/
def domainOf (maxDl : Int) (info : TaskInfo) : List Int := pyRange (numStartTimes maxDl info)

/-- Exceptions that can surface during model construction.
`zeroDivisionError` is Python's error for `//` and `%` by zero;
`valueError` is what the external `dimod` library raises for a nonpositive
case count.  `configurationError` and `infeasibleTaskError` are the error
kinds named by the specification; `schedule.py` defines and raises neither,
so no embedded operation ever produces them. -/
inductive PyErr where
  | zeroDivisionError
  | valueError
  | configurationError
  | infeasibleTaskError
deriving DecidableEq

/-- Placeholder chunk used as the default for positional lookups. -/
def chunkDefault : String × TaskInfo := ("", ⟨0, 0, 0⟩)

/-- The list of chunks `_split_tasks` builds for a single task `name` with
record `info` under max chunk duration `m` (the constructor argument
`max_task_duration`): `duration // m` full chunks labelled `name_0`,
`name_1`, ... followed by one remainder chunk exactly when
`duration % m > 0`.  Python `//` and `%` are floor-based, hence
`Int.fdiv` / `Int.fmod`. -/
def chunkList (name : String) (info : TaskInfo) (m : Int) : List (String × TaskInfo) :=
  (pyRange (info.duration.fdiv m)).map
    (fun i => (name ++ "_" ++ toString i, TaskInfo.mk m info.deadline info.priority))
  ++ (if 0 < info.duration.fmod m
      then [(name ++ "_" ++ toString (info.duration.fdiv m),
             TaskInfo.mk (info.duration.fmod m) info.deadline info.priority)]
      else [])

/-- Embeds `_split_tasks` restricted to one task, with Python's
`ZeroDivisionError` surfaced when the max chunk duration is zero. -/
def splitChunks (name : String) (info : TaskInfo) (m : Int) :
    Except PyErr (List (String × TaskInfo)) :=
  if m = 0 then .error .zeroDivisionError else .ok (chunkList name info m)

/-- Embeds `TaskScheduler._split_tasks` over the whole task collection (the
insertion-ordered dict becomes a list; with distinct task names the dict
inserts never collide, so concatenation is faithful). -/
def splitTasks (tasks : List (String × TaskInfo)) (m : Int) :
    Except PyErr (List (String × TaskInfo)) :=
  match tasks with
  | [] => .ok []
  | t :: rest => do
    let c ← splitChunks t.1 t.2 m
    let cs ← splitTasks rest m
    .ok (c ++ cs)

/-- Models the external `dimod.DiscreteQuadraticModel.add_variable` contract
(not part of this repository): a variable with `numCases` cases `0 ..
numCases - 1` is registered, and a nonpositive `numCases` is rejected with
`ValueError`.  This call is the only thing `_add_variables` does with the
computed `num_start_times`; `schedule.py` itself performs no validation. -/
def addVariable (numCases : Int) : Except PyErr (List Int) :=
  if numCases ≤ 0 then .error .valueError else .ok (pyRange numCases)

/-- Embeds `TaskScheduler._add_variables`: register one variable per chunk,
in order, stopping at the first failure. -/
def addVariables (tasks : List (String × TaskInfo)) (maxDl : Int) :
    Except PyErr (List (String × List Int)) :=
  match tasks with
  | [] => .ok []
  | t :: rest => do
    let dom ← addVariable (numStartTimes maxDl t.2)
    let doms ← addVariables rest maxDl
    .ok ((t.1, dom) :: doms)

/-- Embeds `deadline_penalty if t + info['duration'] > info['deadline'] else 0`
with `deadline_penalty = 10` from `_add_deadline_and_unavailable_penalties`. -/
def deadlinePenalty (info : TaskInfo) (t : Int) : ℚ :=
  if t + info.duration > info.deadline then 10 else 0

/-- Embeds `unavailable_penalty if t in self.unavailable_hours else 0` with
`unavailable_penalty = 10`. -/
def unavailablePenalty (unavailable : Finset Int) (t : Int) : ℚ :=
  if t ∈ unavailable then 10 else 0

/-- Embeds `reward_factor = 1` from `_add_priority_rewards`. -/
def rewardFactor : ℚ := 1

/-- Embeds `reward_factor * info['priority'] / (t + 1)` (Python true
division, embedded in `ℚ`). -/
def priorityReward (info : TaskInfo) (t : Int) : ℚ :=
  rewardFactor * (info.priority : ℚ) / ((t : ℚ) + 1)

/-- Embeds `favorite_hour_reward if t in self.favorite_hours else 0` with
`favorite_hour_reward = 1`. -/
def favoriteHourReward (favorite : Finset Int) (t : Int) : ℚ :=
  if t ∈ favorite then 1 else 0

/-- Embeds `_add_deadline_and_unavailable_penalties` for one chunk: the two
comprehensions over `range(num_start_times)` zipped by addition, the vector
passed to `dqm.set_linear`. -/
def penaltiesVector (maxDl : Int) (info : TaskInfo) (unavailable : Finset Int) : List ℚ :=
  List.zipWith (fun p u => p + u)
    ((domainOf maxDl info).map (fun t => deadlinePenalty info t))
    ((domainOf maxDl info).map (fun t => unavailablePenalty unavailable t))

/-- Embeds `_add_priority_rewards` for one chunk: the priority and
favorite-hour comprehensions are zipped by addition, then the current
linear bias (the vector written by the penalties pass) is read back with
`get_linear` and the rewards are ADDED to it; the result is the final
vector stored with `set_linear`. -/
def finalBiasVector (maxDl : Int) (info : TaskInfo) (unavailable favorite : Finset Int) :
    List ℚ :=
  List.zipWith (fun p r => p + r)
    (penaltiesVector maxDl info unavailable)
    (List.zipWith (fun r f => r + f)
      ((domainOf maxDl info).map (fun t => priorityReward info t))
      ((domainOf maxDl info).map (fun t => favoriteHourReward favorite t)))

/-- The per-start-time value of the final linear bias exactly as the code
computes it: `(deadline + unavailable) + (priority + favorite)`, all four
terms with positive sign. -/
def combinedBias (info : TaskInfo) (unavailable favorite : Finset Int) (t : Int) : ℚ :=
  (deadlinePenalty info t + unavailablePenalty unavailable t)
  + (priorityReward info t + favoriteHourReward favorite t)

/-- Follows the SPEC wording (section 4.4), for comparison with
`combinedBias`: combined bias = deadline_penalty + unavailable_penalty
MINUS priority_reward MINUS favorite_hour_reward. -/
def specCombinedBias (info : TaskInfo) (unavailable favorite : Finset Int) (t : Int) : ℚ :=
  deadlinePenalty info t + unavailablePenalty unavailable t
  - priorityReward info t - favoriteHourReward favorite t

/-- Embeds `penalty = 10` from `_add_constraints_and_penalties`. -/
def conflictPenalty : ℚ := 10

/-- The overlap test on line 65 of `schedule.py`: Python's chained
comparisons `t1 <= t2 < t1 + dur1 or t2 <= t1 < t2 + dur2`. -/
def overlapTest (info1 info2 : TaskInfo) (t1 t2 : Int) : Prop :=
  (t1 ≤ t2 ∧ t2 < t1 + info1.duration) ∨ (t2 ≤ t1 ∧ t1 < t2 + info2.duration)

instance (info1 info2 : TaskInfo) (t1 t2 : Int) : Decidable (overlapTest info1 info2 t1 t2) := by
  unfold overlapTest; infer_instance

/-- The quadratic entries `_add_constraints_and_penalties` records for one
ordered pair of chunks that passes the `task1 < task2` guard: all pairs
`(t1, t2)` of domain values where the overlap test holds, each mapped to
the conflict penalty 10. -/
def pairEntries (maxDl : Int) (info1 info2 : TaskInfo) : List ((Int × Int) × ℚ) :=
  (pyRange (numStartTimes maxDl info1)).flatMap (fun t1 =>
    (pyRange (numStartTimes maxDl info2)).flatMap (fun t2 =>
      if overlapTest info1 info2 t1 t2 then [((t1, t2), conflictPenalty)] else []))

/-- Embeds the full double loop of `_add_constraints_and_penalties`: every
ordered pair of tasks is visited, and entries are recorded only under the
`task1 < task2` guard (Python string comparison embeds as `String` order,
both lexicographic). -/
def conflictEntries (maxDl : Int) (tasks : List (String × TaskInfo)) :
    List ((String × String) × (Int × Int) × ℚ) :=
  tasks.flatMap (fun p1 => tasks.flatMap (fun p2 =>
    if p1.1 < p2.1 then (pairEntries maxDl p1.2 p2.2).map (fun e => ((p1.1, p2.1), e))
    else []))

/-- The label pairs that pass the `task1 < task2` guard of
`_add_constraints_and_penalties`, i.e. the unordered pairs the penalizer
actually processes, listed in visit order. -/
def processedPairs (tasks : List (String × TaskInfo)) : List (String × String) :=
  tasks.flatMap (fun p1 => tasks.flatMap (fun p2 =>
    if p1.1 < p2.1 then [(p1.1, p2.1)] else []))

/-! ### Helper lemmas -/

theorem mem_pyRange {n t : Int} : t ∈ pyRange n ↔ 0 ≤ t ∧ t < n := by
  simp only [pyRange, List.mem_map, List.mem_range]
  constructor
  · rintro ⟨k, hk, rfl⟩; omega
  · rintro ⟨h0, h1⟩; exact ⟨t.toNat, by omega, by omega⟩

theorem length_pyRange (n : Int) : (pyRange n).length = n.toNat := by
  simp [pyRange]

theorem getD_pyRange (n : Int) (k : Nat) (hk : k < n.toNat) :
    (pyRange n).getD k 0 = k := by
  simp [pyRange, List.getD_eq_getElem?_getD, List.getElem?_map, List.getElem?_range, hk]

theorem getD_map_pyRange {α : Type} (n : Int) (f : Int → α) (k : Nat) (d : α)
    (hk : k < n.toNat) : ((pyRange n).map f).getD k d = f k := by
  simp [pyRange, List.getD_eq_getElem?_getD, List.getElem?_map, List.getElem?_range, hk]

theorem zipWith_map_same {α β γ δ : Type} (f : β → γ → δ) (g : α → β) (h : α → γ)
    (l : List α) : List.zipWith f (l.map g) (l.map h) = l.map (fun x => f (g x) (h x)) := by
  induction l with
  | nil => rfl
  | cons a l ih => simp [ih]

theorem finalBiasVector_eq (maxDl : Int) (info : TaskInfo) (unavailable favorite : Finset Int) :
    finalBiasVector maxDl info unavailable favorite =
      (domainOf maxDl info).map (fun t => combinedBias info unavailable favorite t) := by
  unfold finalBiasVector penaltiesVector
  rw [zipWith_map_same, zipWith_map_same, zipWith_map_same]
  rfl

/-! ### Claims -/

/-- C10: for every chunk and every start time in its domain, the linear bias
in the finished model is the elementwise sum of all four terms with uniform
positive sign — the rewards pass reads back and preserves the penalties
written by the first pass, never discarding or negating them. -/
theorem C10_final_bias_uniform_sign (maxDl : Int) (info : TaskInfo)
    (unavailable favorite : Finset Int) :
    finalBiasVector maxDl info unavailable favorite =
      (domainOf maxDl info).map (fun t =>
        (if t + info.duration > info.deadline then (10 : ℚ) else 0)
        + (if t ∈ unavailable then (10 : ℚ) else 0)
        + (info.priority : ℚ) / ((t : ℚ) + 1)
        + (if t ∈ favorite then (1 : ℚ) else 0)) := by
  rw [finalBiasVector_eq]
  apply List.map_congr_left
  intro t _
  unfold combinedBias deadlinePenalty unavailablePenalty priorityReward
    favoriteHourReward rewardFactor
  ring

/-- C8: the combined bias includes the deadline penalty 10 exactly when
`t + duration > deadline`; at `t + duration = deadline` no deadline penalty
applies. -/
theorem C8_deadline_boundary (maxDl : Int) (info : TaskInfo)
    (unavailable favorite : Finset Int) (t : Int)
    (ht : t ∈ domainOf maxDl info) :
    combinedBias info unavailable favorite t ∈ finalBiasVector maxDl info unavailable favorite
    ∧ (t + info.duration > info.deadline →
        combinedBias info unavailable favorite t
          = 10 + (unavailablePenalty unavailable t + priorityReward info t
                  + favoriteHourReward favorite t))
    ∧ (¬ t + info.duration > info.deadline →
        combinedBias info unavailable favorite t
          = unavailablePenalty unavailable t + priorityReward info t
            + favoriteHourReward favorite t)
    ∧ (t + info.duration = info.deadline →
        combinedBias info unavailable favorite t
          = unavailablePenalty unavailable t + priorityReward info t
            + favoriteHourReward favorite t) := by
  refine ⟨?_, ?_, ?_, ?_⟩
  · rw [finalBiasVector_eq]
    exact List.mem_map_of_mem _ ht
  · intro h
    unfold combinedBias deadlinePenalty
    rw [if_pos h]; ring
  · intro h
    unfold combinedBias deadlinePenalty
    rw [if_neg h]; ring
  · intro h
    unfold combinedBias deadlinePenalty
    rw [if_neg (by omega)]; ring

/-- Witness for C8 at a concrete input: chunk of duration 1, deadline 5,
priority 0, start time 5 (strictly past the deadline boundary). -/
theorem C8_deadline_boundary_witness :
    (5 : Int) ∈ domainOf (maxDeadline 1) ⟨1, 5, 0⟩
    ∧ combinedBias ⟨1, 5, 0⟩ ∅ ∅ 5
        = 10 + (unavailablePenalty ∅ 5 + priorityReward ⟨1, 5, 0⟩ 5
                + favoriteHourReward ∅ 5) :=
  ⟨by decide, (C8_deadline_boundary (maxDeadline 1) ⟨1, 5, 0⟩ ∅ ∅ 5 (by decide)).2.1
    (by decide)⟩

/-- C5: for a chunk whose duration fits in the horizon, the registered
domain is the ascending sequence `0 .. maxDeadline - duration` inclusive,
of size exactly `maxDeadline - duration + 1`, with the horizon
`maxDeadline = numDays * 24`. -/
theorem C5_domain (numDays : Int) (info : TaskInfo)
    (hd : info.duration ≤ maxDeadline numDays) :
    ((domainOf (maxDeadline numDays) info).length : Int)
        = maxDeadline numDays - info.duration + 1
    ∧ (∀ t, t ∈ domainOf (maxDeadline numDays) info ↔
        0 ≤ t ∧ t ≤ maxDeadline numDays - info.duration)
    ∧ ∀ k : Nat, k < (domainOf (maxDeadline numDays) info).length →
        (domainOf (maxDeadline numDays) info).getD k 0 = k := by
  refine ⟨?_, ?_, ?_⟩
  · rw [domainOf, length_pyRange, numStartTimes]
    omega
  · intro t
    rw [domainOf, mem_pyRange, numStartTimes]
    omega
  · intro k hk
    rw [domainOf, length_pyRange] at hk
    exact getD_pyRange _ k hk

/-- Witness for C5 at a concrete input: one day, chunk duration 2. -/
theorem C5_domain_witness :
    (⟨2, 5, 1⟩ : TaskInfo).duration ≤ maxDeadline 1
    ∧ ((domainOf (maxDeadline 1) ⟨2, 5, 1⟩).length : Int)
        = maxDeadline 1 - (⟨2, 5, 1⟩ : TaskInfo).duration + 1 :=
  ⟨by decide, (C5_domain 1 ⟨2, 5, 1⟩ (by decide)).1⟩

/-- C1 fails on the code: the priority and favorite-hour terms are ADDED to
the combined bias, not subtracted.  At a chunk of duration 1, deadline 24,
priority 1, favorite hours {2}, start time 2 inside the one-day horizon,
the code stores bias 4/3 while the spec formula gives -4/3, so favorite
hours and higher priority RAISE the minimized bias. -/
theorem C1_sign_flip :
    combinedBias ⟨1, 24, 1⟩ ∅ {2} 2 = 4 / 3
    ∧ specCombinedBias ⟨1, 24, 1⟩ ∅ {2} 2 = -(4 / 3)
    ∧ combinedBias ⟨1, 24, 1⟩ ∅ {2} 2 ≠ specCombinedBias ⟨1, 24, 1⟩ ∅ {2} 2
    ∧ (finalBiasVector (maxDeadline 1) ⟨1, 24, 1⟩ ∅ {2}).getD 2 0 = 4 / 3 := by
  have hv : (finalBiasVector (maxDeadline 1) ⟨1, 24, 1⟩ ∅ {2}).getD 2 0
      = combinedBias ⟨1, 24, 1⟩ ∅ {2} 2 := by
    rw [finalBiasVector_eq, domainOf]
    exact getD_map_pyRange _ _ 2 0 (by decide)
  have hb : combinedBias ⟨1, 24, 1⟩ ∅ {2} 2 = 4 / 3 := by
    norm_num [combinedBias, deadlinePenalty, unavailablePenalty,
      priorityReward, favoriteHourReward, rewardFactor]
  have hs : specCombinedBias ⟨1, 24, 1⟩ ∅ {2} 2 = -(4 / 3) := by
    norm_num [specCombinedBias, deadlinePenalty, unavailablePenalty,
      priorityReward, favoriteHourReward, rewardFactor]
  refine ⟨hb, hs, ?_, by rw [hv, hb]⟩
  rw [hb, hs]
  norm_num

/-- C9 fails on the code: with all other bias terms equal (deadline 100
never violated within the one-day horizon, priority 0, no unavailable
hours), the favorite start time 3 gets bias 1 while the non-favorite start
time 5 gets bias 0 — strictly HIGHER, not lower. -/
theorem C9_favorite_raises_bias :
    (3 : Int) ∈ domainOf (maxDeadline 1) ⟨1, 100, 0⟩
    ∧ (5 : Int) ∈ domainOf (maxDeadline 1) ⟨1, 100, 0⟩
    ∧ combinedBias ⟨1, 100, 0⟩ ∅ {3} 3 = 1
    ∧ combinedBias ⟨1, 100, 0⟩ ∅ {3} 5 = 0
    ∧ ¬ combinedBias ⟨1, 100, 0⟩ ∅ {3} 3 < combinedBias ⟨1, 100, 0⟩ ∅ {3} 5 := by
  refine ⟨by decide, by decide, ?_, ?_, ?_⟩ <;>
    norm_num [combinedBias, deadlinePenalty, unavailablePenalty, priorityReward,
      favoriteHourReward, rewardFactor]

theorem mem_if_singleton {α : Type} {c : Prop} [Decidable c] {x b : α} :
    (b ∈ if c then [x] else []) ↔ c ∧ b = x := by
  split <;> simp_all

theorem mem_pairEntries (maxDl : Int) (info1 info2 : TaskInfo) (t1 t2 : Int) (q : ℚ) :
    ((t1, t2), q) ∈ pairEntries maxDl info1 info2 ↔
      t1 ∈ pyRange (numStartTimes maxDl info1)
      ∧ t2 ∈ pyRange (numStartTimes maxDl info2)
      ∧ overlapTest info1 info2 t1 t2 ∧ q = conflictPenalty := by
  unfold pairEntries
  simp only [List.mem_flatMap, mem_if_singleton, Prod.mk.injEq]
  constructor
  · rintro ⟨a, ha, b, hb, hov, ⟨rfl, rfl⟩, rfl⟩
    exact ⟨ha, hb, hov, rfl⟩
  · rintro ⟨ha, hb, hov, rfl⟩
    exact ⟨t1, ha, t2, hb, hov, ⟨rfl, rfl⟩, rfl⟩

theorem overlapTest_iff (info1 info2 : TaskInfo) (h1 : 0 < info1.duration)
    (h2 : 0 < info2.duration) (t1 t2 : Int) :
    overlapTest info1 info2 t1 t2 ↔ t1 < t2 + info2.duration ∧ t2 < t1 + info1.duration := by
  unfold overlapTest; omega

/-- C2: for chunks of positive duration, a pairwise penalty entry of value
`conflictPenalty = 10` is recorded for `(t1, t2)` iff both times are in
their domains and `t1 < t2 + dur2` and `t2 < t1 + dur1`; in particular the
back-to-back case `t2 = t1 + dur1` is never penalized. -/
theorem C2_overlap_entries (maxDl : Int) (info1 info2 : TaskInfo)
    (h1 : 0 < info1.duration) (h2 : 0 < info2.duration) (t1 t2 : Int) :
    conflictPenalty = 10
    ∧ (((t1, t2), conflictPenalty) ∈ pairEntries maxDl info1 info2 ↔
        t1 ∈ domainOf maxDl info1 ∧ t2 ∈ domainOf maxDl info2
        ∧ t1 < t2 + info2.duration ∧ t2 < t1 + info1.duration)
    ∧ (t2 = t1 + info1.duration →
        ∀ q : ℚ, ((t1, t2), q) ∉ pairEntries maxDl info1 info2) := by
  refine ⟨rfl, ?_, ?_⟩
  · rw [mem_pairEntries, overlapTest_iff info1 info2 h1 h2, domainOf, domainOf]
    tauto
  · intro hb q hmem
    rw [mem_pairEntries, overlapTest_iff info1 info2 h1 h2] at hmem
    obtain ⟨-, -, hov, -⟩ := hmem
    omega

/-- Witness for C2 at a concrete input: two chunks of durations 2 and 3 in
a one-day horizon, start times 0 and 1 (which do overlap). -/
theorem C2_overlap_entries_witness :
    0 < (⟨2, 5, 1⟩ : TaskInfo).duration ∧ 0 < (⟨3, 6, 1⟩ : TaskInfo).duration
    ∧ ((((0 : Int), (1 : Int)), conflictPenalty) ∈ pairEntries (maxDeadline 1) ⟨2, 5, 1⟩ ⟨3, 6, 1⟩ ↔
        (0 : Int) ∈ domainOf (maxDeadline 1) ⟨2, 5, 1⟩
        ∧ (1 : Int) ∈ domainOf (maxDeadline 1) ⟨3, 6, 1⟩
        ∧ (0 : Int) < 1 + (⟨3, 6, 1⟩ : TaskInfo).duration
        ∧ (1 : Int) < 0 + (⟨2, 5, 1⟩ : TaskInfo).duration) :=
  ⟨by decide, by decide,
    (C2_overlap_entries (maxDeadline 1) ⟨2, 5, 1⟩ ⟨3, 6, 1⟩ (by decide) (by decide) 0 1).2.1⟩

theorem sum_map_const {α : Type} (l : List α) (c : Int) :
    (l.map (fun _ => c)).sum = l.length * c := by
  induction l with
  | nil => simp
  | cons a l ih =>
    simp only [List.map_cons, List.sum_cons, ih, List.length_cons]
    push_cast
    ring

theorem getElem?_map_pyRange {α : Type} (n : Int) (f : Int → α) (k : Nat)
    (hk : k < n.toNat) : ((pyRange n).map f)[k]? = some (f k) := by
  simp [pyRange, List.getElem?_map, List.getElem?_range, hk]

/-- C3: splitting a task of positive duration `d` with positive max chunk
duration `m` yields `d // m` full chunks of duration `m` at ascending
indices, plus one remainder chunk exactly when `d % m > 0`; durations sum
to `d`, each lies in `(0, m]`, and deadline and priority are inherited. -/
theorem C3_split (name : String) (info : TaskInfo) (m : Int)
    (hd : 0 < info.duration) (hm : 0 < m) :
    splitChunks name info m = .ok (chunkList name info m)
    ∧ ((chunkList name info m).map (fun c => c.2.duration)).sum = info.duration
    ∧ (chunkList name info m).length
        = (info.duration.fdiv m).toNat + (if 0 < info.duration.fmod m then 1 else 0)
    ∧ (∀ k : Nat, k < (info.duration.fdiv m).toNat →
        (chunkList name info m).getD k chunkDefault
          = (name ++ "_" ++ toString (k : Int), TaskInfo.mk m info.deadline info.priority))
    ∧ (0 < info.duration.fmod m →
        (chunkList name info m).getD (info.duration.fdiv m).toNat chunkDefault
          = (name ++ "_" ++ toString (info.duration.fdiv m),
             TaskInfo.mk (info.duration.fmod m) info.deadline info.priority))
    ∧ (∀ c ∈ chunkList name info m,
        (0 < c.2.duration ∧ c.2.duration ≤ m)
        ∧ c.2.deadline = info.deadline ∧ c.2.priority = info.priority) := by
  have hnc : 0 ≤ info.duration.fdiv m := Int.fdiv_nonneg hd.le hm.le
  have hr0 : 0 ≤ info.duration.fmod m := Int.fmod_nonneg' _ hm
  have hrm : info.duration.fmod m < m := Int.fmod_lt_of_pos _ hm
  have heq : info.duration.fdiv m * m + info.duration.fmod m = info.duration := by
    rw [mul_comm]
    exact Int.fdiv_add_fmod _ _
  refine ⟨?_, ?_, ?_, ?_, ?_, ?_⟩
  · unfold splitChunks
    rw [if_neg (by omega)]
  · unfold chunkList
    rw [List.map_append, List.sum_append, List.map_map]
    have h1 : ((fun (c : String × TaskInfo) => c.2.duration) ∘
        (fun (i : Int) => (name ++ "_" ++ toString i, TaskInfo.mk m info.deadline info.priority)))
        = fun _ => m := rfl
    rw [h1, sum_map_const, length_pyRange]
    by_cases hr : 0 < info.duration.fmod m
    · rw [if_pos hr]
      simp only [List.map_cons, List.map_nil, List.sum_cons, List.sum_nil]
      rw [Int.toNat_of_nonneg hnc]
      omega
    · rw [if_neg hr]
      simp only [List.map_nil, List.sum_nil]
      rw [Int.toNat_of_nonneg hnc]
      omega
  · unfold chunkList
    rw [List.length_append, List.length_map, length_pyRange]
    by_cases hr : 0 < info.duration.fmod m
    · rw [if_pos hr, if_pos hr]; rfl
    · rw [if_neg hr, if_neg hr]; rfl
  · intro k hk
    unfold chunkList
    rw [List.getD_eq_getElem?_getD, List.getElem?_append_left
      (by rw [List.length_map, length_pyRange]; exact hk), getElem?_map_pyRange _ _ _ hk]
    rfl
  · intro hr
    unfold chunkList
    rw [List.getD_eq_getElem?_getD, List.getElem?_append_right
      (by rw [List.length_map, length_pyRange]), List.length_map, length_pyRange,
      Nat.sub_self, if_pos hr]
    rfl
  · intro c hc
    unfold chunkList at hc
    rcases List.mem_append.mp hc with hcl | hcr
    · obtain ⟨i, -, rfl⟩ := List.mem_map.mp hcl
      exact ⟨⟨hm, le_refl m⟩, rfl, rfl⟩
    · by_cases hr : 0 < info.duration.fmod m
      · rw [if_pos hr, List.mem_singleton] at hcr
        subst hcr
        exact ⟨⟨hr, hrm.le⟩, rfl, rfl⟩
      · rw [if_neg hr] at hcr
        exact absurd hcr (List.not_mem_nil c)

/-- Witness for C3 at a concrete input: a task of duration 5 split with max
chunk duration 2 (two full chunks and a remainder chunk of duration 1). -/
theorem C3_split_witness :
    0 < (⟨5, 10, 2⟩ : TaskInfo).duration ∧ 0 < (2 : Int)
    ∧ ((chunkList "a" ⟨5, 10, 2⟩ 2).map (fun c => c.2.duration)).sum
        = (⟨5, 10, 2⟩ : TaskInfo).duration :=
  ⟨by decide, by decide, (C3_split "a" ⟨5, 10, 2⟩ 2 (by decide) (by decide)).2.1⟩

theorem except_bind_error {ε α β : Type} (e : ε) (f : α → Except ε β) :
    (Except.error e >>= f) = Except.error e := rfl

theorem except_bind_ok {ε α β : Type} (a : α) (f : α → Except ε β) :
    (Except.ok a >>= f) = f a := rfl

theorem fmod_nonpos_of_pos_of_neg {d m : Int} (hd : 0 < d) (hm : m < 0) :
    d.fmod m ≤ 0 := by
  rcases d with (dk | dk)
  · rcases m with (mk | j)
    · exact absurd hm (Int.ofNat_zero_le mk).not_lt
    · cases dk with
      | zero => exact absurd hd (by decide)
      | succ k =>
        have h : (Int.ofNat (k + 1)).fmod (Int.negSucc j) = Int.subNatNat (k % (j + 1)) j :=
          rfl
        rw [h, Int.subNatNat_eq_coe]
        have hlt : k % (j + 1) < j + 1 := Nat.mod_lt _ (Nat.succ_pos j)
        omega
  · exact absurd (lt_trans hd (Int.negSucc_lt_zero dk)) (lt_irrefl 0)

theorem chunkList_eq_nil_of_neg (name : String) (info : TaskInfo) (m : Int)
    (hd : 0 < info.duration) (hm : m < 0) : chunkList name info m = [] := by
  unfold chunkList
  rw [if_neg (not_lt.mpr (fmod_nonpos_of_pos_of_neg hd hm))]
  have h0 : (info.duration.fdiv m).toNat = 0 := by
    have := Int.fdiv_nonpos hd.le hm.le
    omega
  simp [pyRange, h0]

/-- C7 fails on the code: there is no `ConfigurationError` anywhere.  With
`max_chunk_duration = -1` and a task of duration 5, splitting returns
successfully with no chunks at all instead of failing. -/
theorem C7_counterexample :
    splitTasks [("a", ⟨5, 10, 1⟩)] (-1) = .ok []
    ∧ splitTasks [("a", ⟨5, 10, 1⟩)] (-1) ≠ .error .configurationError := by
  have h : splitTasks [("a", ⟨5, 10, 1⟩)] (-1) = .ok [] := rfl
  refine ⟨h, ?_⟩
  rw [h]
  exact fun hh => Except.noConfusion hh

/-- C7 amended: for `max_chunk_duration = 0` splitting fails with Python's
`ZeroDivisionError` at the first task (when any task exists); for a
negative max chunk duration it silently returns no chunks; and no run of
the splitter ever fails with `ConfigurationError`, which the code does not
define. -/
theorem C7_no_configuration_error (tasks : List (String × TaskInfo)) (m : Int) :
    (m = 0 → tasks ≠ [] → splitTasks tasks m = .error .zeroDivisionError)
    ∧ (m < 0 → (∀ p ∈ tasks, 0 < p.2.duration) → splitTasks tasks m = .ok [])
    ∧ ∀ e, splitTasks tasks m = .error e → e = .zeroDivisionError := by
  refine ⟨?_, ?_, ?_⟩
  · intro hm0 hne
    subst hm0
    cases tasks with
    | nil => exact absurd rfl hne
    | cons t rest => rfl
  · intro hm hall
    induction tasks with
    | nil => rfl
    | cons t rest ih =>
      have hc : splitChunks t.1 t.2 m = .ok [] := by
        unfold splitChunks
        rw [if_neg (by omega), chunkList_eq_nil_of_neg t.1 t.2 m
          (hall t (List.mem_cons_self t rest)) hm]
      have hrest : splitTasks rest m = .ok [] :=
        ih (fun p hp => hall p (List.mem_cons_of_mem t hp))
      unfold splitTasks
      rw [hc, except_bind_ok, hrest, except_bind_ok]
      rfl
  · induction tasks with
    | nil => intro e h; exact absurd h (by simp [splitTasks])
    | cons t rest ih =>
      intro e h
      unfold splitTasks at h
      rcases hsc : splitChunks t.1 t.2 m with e1 | c
      · have he1 : e1 = .zeroDivisionError := by
          unfold splitChunks at hsc
          split at hsc
          · exact (Except.error.inj hsc).symm
          · exact Except.noConfusion hsc
        rw [hsc, except_bind_error] at h
        exact (Except.error.inj h) ▸ he1
      · rw [hsc, except_bind_ok] at h
        rcases hst : splitTasks rest m with e2 | cs
        · rw [hst, except_bind_error] at h
          exact (Except.error.inj h) ▸ ih e2 hst
        · rw [hst, except_bind_ok] at h
          exact Except.noConfusion h

/-- Witness for the amended C7: one task of duration 5, max chunk duration
0: splitting fails with `ZeroDivisionError`. -/
theorem C7_no_configuration_error_witness :
    (0 : Int) = 0 ∧ [("a", (⟨5, 10, 1⟩ : TaskInfo))] ≠ []
    ∧ splitTasks [("a", ⟨5, 10, 1⟩)] 0 = .error .zeroDivisionError :=
  ⟨rfl, by decide,
    (C7_no_configuration_error [("a", ⟨5, 10, 1⟩)] 0).1 rfl (by decide)⟩

theorem addVariables_never_infeasible (tasks : List (String × TaskInfo)) (maxDl : Int) :
    addVariables tasks maxDl ≠ .error .infeasibleTaskError := by
  induction tasks with
  | nil => simp [addVariables]
  | cons t rest ih =>
    intro h
    unfold addVariables at h
    rcases hav : addVariable (numStartTimes maxDl t.2) with e1 | dom
    · have he1 : e1 = .valueError := by
        unfold addVariable at hav
        split at hav
        · exact (Except.error.inj hav).symm
        · exact Except.noConfusion hav
      rw [hav, except_bind_error] at h
      have h2 := Except.error.inj h
      rw [he1] at h2
      exact PyErr.noConfusion h2
    · rw [hav, except_bind_ok] at h
      rcases hr : addVariables rest maxDl with e2 | doms
      · rw [hr, except_bind_error] at h
        exact ih (hr.trans (congrArg Except.error (Except.error.inj h)))
      · rw [hr, except_bind_ok] at h
        exact Except.noConfusion h

/-- C6 fails on the code: no `InfeasibleTaskError` exists.  For a one-day
horizon and a chunk of duration 25 (duration exceeds horizon), the
unvalidated nonpositive case count flows into the external model library,
whose `ValueError` is what aborts construction. -/
theorem C6_counterexample :
    addVariables [("a", ⟨25, 30, 1⟩)] (maxDeadline 1) = .error .valueError
    ∧ addVariables [("a", ⟨25, 30, 1⟩)] (maxDeadline 1) ≠ .error .infeasibleTaskError := by
  have h : addVariables [("a", ⟨25, 30, 1⟩)] (maxDeadline 1) = .error .valueError := rfl
  refine ⟨h, ?_⟩
  rw [h]
  intro hh
  exact PyErr.noConfusion (Except.error.inj hh)

/-- C6 amended: when some chunk's domain size `maxDeadline - duration + 1`
is nonpositive, model construction fails before that variable is
registered — but with the external library's `ValueError`; no run ever
raises `InfeasibleTaskError`, which the code does not define. -/
theorem C6_value_error_on_oversized (tasks : List (String × TaskInfo)) (maxDl : Int)
    (h : ∃ p ∈ tasks, numStartTimes maxDl p.2 ≤ 0) :
    addVariables tasks maxDl = .error .valueError
    ∧ ∀ (tasks2 : List (String × TaskInfo)) (maxDl2 : Int),
        addVariables tasks2 maxDl2 ≠ .error .infeasibleTaskError := by
  refine ⟨?_, fun tasks2 maxDl2 => addVariables_never_infeasible tasks2 maxDl2⟩
  induction tasks with
  | nil => simp at h
  | cons t rest ih =>
    by_cases hc : numStartTimes maxDl t.2 ≤ 0
    · have hav : addVariable (numStartTimes maxDl t.2) = .error .valueError := by
        unfold addVariable
        rw [if_pos hc]
      unfold addVariables
      rw [hav, except_bind_error]
    · obtain ⟨p, hp, hple⟩ := h
      rcases List.mem_cons.mp hp with rfl | hp2
      · exact absurd hple hc
      · have hav : addVariable (numStartTimes maxDl t.2) = .ok (pyRange (numStartTimes maxDl t.2)) := by
          unfold addVariable
          rw [if_neg hc]
        have hrest := ih ⟨p, hp2, hple⟩
        unfold addVariables
        rw [hav, except_bind_ok, hrest, except_bind_error]

/-- Witness for the amended C6 at a concrete input: one chunk of duration
25 in a one-day horizon. -/
theorem C6_value_error_on_oversized_witness :
    (∃ p ∈ [("a", (⟨25, 30, 1⟩ : TaskInfo))], numStartTimes (maxDeadline 1) p.2 ≤ 0)
    ∧ addVariables [("b", ⟨25, 30, 1⟩)] (maxDeadline 1) = .error .valueError :=
  ⟨by decide, (C6_value_error_on_oversized [("b", ⟨25, 30, 1⟩)] (maxDeadline 1)
    (by decide)).1⟩

theorem mem_processedPairs {tasks : List (String × TaskInfo)} {a b : String} :
    (a, b) ∈ processedPairs tasks ↔
      a ∈ tasks.map Prod.fst ∧ b ∈ tasks.map Prod.fst ∧ a < b := by
  unfold processedPairs
  simp only [List.mem_flatMap, mem_if_singleton, Prod.mk.injEq, List.mem_map]
  constructor
  · rintro ⟨p1, hp1, p2, hp2, hlt, rfl, rfl⟩
    exact ⟨⟨p1, hp1, rfl⟩, ⟨p2, hp2, rfl⟩, hlt⟩
  · rintro ⟨⟨p1, hp1, rfl⟩, ⟨p2, hp2, rfl⟩, hlt⟩
    exact ⟨p1, hp1, p2, hp2, hlt, rfl, rfl⟩

theorem nodup_processedPairs {tasks : List (String × TaskInfo)}
    (hnd : (tasks.map Prod.fst).Nodup) : (processedPairs tasks).Nodup := by
  have hpw : tasks.Pairwise (fun p q => p.1 ≠ q.1) := by
    rw [List.Nodup, List.pairwise_map] at hnd
    exact hnd
  unfold processedPairs
  rw [List.nodup_flatMap]
  constructor
  · intro p1 hp1
    rw [List.nodup_flatMap]
    constructor
    · intro p2 hp2
      split <;> simp
    · refine hpw.imp ?_
      intro p2 p2' hne x hx hx'
      rw [mem_if_singleton] at hx hx'
      have hx2 := hx.2
      rw [hx'.2] at hx2
      exact hne (congrArg Prod.snd hx2).symm
  · refine hpw.imp ?_
    intro p1 p1' hne x hx hx'
    obtain ⟨p2, hp2, hxif⟩ := List.mem_flatMap.mp hx
    obtain ⟨p2', hp2', hxif'⟩ := List.mem_flatMap.mp hx'
    rw [mem_if_singleton] at hxif hxif'
    have h1 : x.1 = p1.1 := by rw [hxif.2]
    have h2 : x.1 = p1'.1 := by rw [hxif'.2]
    exact hne (h1 ▸ h2)

/-- C4: with pairwise-distinct chunk labels, every unordered pair of
distinct chunks passes the `task1 < task2` guard in exactly one of its two
orientations and appears at most once in the processed list; no chunk is
ever paired with itself, and every quadratic entry the penalizer records is
keyed by a processed pair. -/
theorem C4_pairs_once (maxDl : Int) (tasks : List (String × TaskInfo))
    (hnd : (tasks.map Prod.fst).Nodup) (l1 l2 : String)
    (h1 : l1 ∈ tasks.map Prod.fst) (h2 : l2 ∈ tasks.map Prod.fst) (hne : l1 ≠ l2) :
    (processedPairs tasks).Nodup
    ∧ (((l1, l2) ∈ processedPairs tasks ∧ (l2, l1) ∉ processedPairs tasks)
       ∨ ((l2, l1) ∈ processedPairs tasks ∧ (l1, l2) ∉ processedPairs tasks))
    ∧ (∀ l : String, (l, l) ∉ processedPairs tasks)
    ∧ ∀ e ∈ conflictEntries maxDl tasks, e.1 ∈ processedPairs tasks := by
  refine ⟨nodup_processedPairs hnd, ?_, ?_, ?_⟩
  · rcases lt_trichotomy l1 l2 with hlt | heq | hgt
    · exact Or.inl ⟨mem_processedPairs.mpr ⟨h1, h2, hlt⟩, fun hmem2 =>
        absurd (mem_processedPairs.mp hmem2).2.2 (not_lt.mpr hlt.le)⟩
    · exact absurd heq hne
    · exact Or.inr ⟨mem_processedPairs.mpr ⟨h2, h1, hgt⟩, fun hmem2 =>
        absurd (mem_processedPairs.mp hmem2).2.2 (not_lt.mpr hgt.le)⟩
  · intro l hmem
    exact absurd (mem_processedPairs.mp hmem).2.2 (lt_irrefl l)
  · intro e he
    obtain ⟨p1, hp1, he2⟩ := List.mem_flatMap.mp he
    obtain ⟨p2, hp2, he3⟩ := List.mem_flatMap.mp he2
    by_cases hlt : p1.1 < p2.1
    · rw [if_pos hlt] at he3
      obtain ⟨en, -, rfl⟩ := List.mem_map.mp he3
      exact mem_processedPairs.mpr
        ⟨List.mem_map_of_mem Prod.fst hp1, List.mem_map_of_mem Prod.fst hp2, hlt⟩
    · rw [if_neg hlt] at he3
      exact absurd he3 (List.not_mem_nil e)

/-- Witness for C4 at a concrete input: two chunks labelled "a" and "b". -/
theorem C4_pairs_once_witness :
    ([("a", (⟨1, 5, 1⟩ : TaskInfo)), ("b", ⟨1, 5, 1⟩)].map Prod.fst).Nodup
    ∧ "a" ∈ [("a", (⟨1, 5, 1⟩ : TaskInfo)), ("b", ⟨1, 5, 1⟩)].map Prod.fst
    ∧ "b" ∈ [("a", (⟨1, 5, 1⟩ : TaskInfo)), ("b", ⟨1, 5, 1⟩)].map Prod.fst
    ∧ "a" ≠ "b"
    ∧ ((("a", "b") ∈ processedPairs [("a", ⟨1, 5, 1⟩), ("b", ⟨1, 5, 1⟩)]
        ∧ ("b", "a") ∉ processedPairs [("a", ⟨1, 5, 1⟩), ("b", ⟨1, 5, 1⟩)])
       ∨ (("b", "a") ∈ processedPairs [("a", ⟨1, 5, 1⟩), ("b", ⟨1, 5, 1⟩)]
        ∧ ("a", "b") ∉ processedPairs [("a", ⟨1, 5, 1⟩), ("b", ⟨1, 5, 1⟩)])) :=
  ⟨by decide, by decide, by decide, by decide,
    (C4_pairs_once (maxDeadline 1) [("a", ⟨1, 5, 1⟩), ("b", ⟨1, 5, 1⟩)] (by decide)
      "a" "b" (by decide) (by decide) (by decide)).2.1⟩

end Schedule
